import Mathlib

/-!
Verification of the Pathfinder repository's physics stepper and jump-scheduling
pathfinder (src/main.cpp), shallowly embedded over exact rationals.  Every
definition below mirrors the corresponding C++ function; single-precision
floats are modelled by `ℚ` (the claims under study are structural and do not
depend on rounding).
-/

set_option allowUnsafeReducibility true in
attribute [semireducible] Rat.add Rat.mul Rat.inv Rat.sub Rat.div

/-! ## Tunables (src/main.cpp lines 38-45) -/

def FRAME_DT : ℚ := 1 / 60
def PLAYER_SPEED : ℚ := 220
def GRAVITY : ℚ := -1600
def JUMP_VELOCITY : ℚ := 680
def LOOKAHEAD_FRAMES : Nat := 36
def MAX_SIM_FRAMES : Nat := 60 * 300

/-- Landing epsilon `1e-3f` used in `stepSim` (main.cpp line 96). -/
def landEps : ℚ := 1 / 1000

/-- Sentinel "dead" vertical position set on spike contact (main.cpp line 123). -/
def sentinelY : ℚ := -999999

/-- Threshold of the strict `py < -1000.0f` dead tests in the pathfinder
(main.cpp lines 152, 167, 187). -/
def deadThreshold : ℚ := -1000

/-! ## Data model (main.cpp lines 47-73) -/

structure Rect where
  x : ℚ
  y : ℚ
  w : ℚ
  h : ℚ
deriving DecidableEq, Repr

/-- `Rect::contains` (main.cpp lines 47-49). -/
def Rect.contains (r : Rect) (px py : ℚ) : Bool :=
  decide (r.x ≤ px) && decide (px ≤ r.x + r.w) &&
  decide (r.y ≤ py) && decide (py ≤ r.y + r.h)

inductive ObjType where
  | PLATFORM
  | SPIKE
  | JUMP_PAD
  | UNKNOWN
deriving DecidableEq, Repr

structure Obj where
  type : ObjType
  r : Rect
  power : ℚ
deriving DecidableEq, Repr

structure SimState where
  px : ℚ
  py : ℚ
  vx : ℚ
  vy : ℚ
  onGround : Bool
deriving DecidableEq, Repr

/-! ## Physics stepper `stepSim` (main.cpp lines 77-128), split into its four
sequential phases: jump application + integration, platform landing, jump
pads, spikes. -/

/-- Jump branch and numeric integration of `stepSim` (main.cpp lines 78-87):
if jumping from the ground, set `vy` to the jump velocity and clear
`onGround`; then advance `px` by the fixed horizontal speed, apply gravity to
`vy`, and advance `py` by the updated `vy`. -/
def integrate (s : SimState) (doJump : Bool) : SimState :=
  let s0 := if doJump && s.onGround then { s with vy := JUMP_VELOCITY, onGround := false } else s
  let vy := s0.vy + GRAVITY * FRAME_DT
  { s0 with px := s0.px + PLAYER_SPEED * FRAME_DT, vy := vy, py := s0.py + vy * FRAME_DT }

/-- The landing filter of `stepSim` (main.cpp lines 92-99): a platform
qualifies when the new `px` is inside its horizontal span and the top edge was
crossed downward this step, within the `1e-3` epsilon. `prevPy` is the `py`
of the pre-step state `s`. -/
def landQualifies (prevPy px py : ℚ) (o : Obj) : Bool :=
  o.type == ObjType.PLATFORM &&
  decide (o.r.x ≤ px) && decide (px ≤ o.r.x + o.r.w) &&
  decide (o.r.y + o.r.h - landEps ≤ prevPy) && decide (py ≤ o.r.y + o.r.h + landEps)

/-- Top edge `o.r.y + o.r.h` of an obstacle (main.cpp line 94). -/
def topEdge (o : Obj) : ℚ := o.r.y + o.r.h

/-- One iteration of the `bestTop` loop (main.cpp lines 92-100): keep the
greater qualifying top edge (`if (top > bestTop)`), `none` standing for the
initial `-INFINITY`. -/
def landBest (prevPy px py : ℚ) (best : Option ℚ) (o : Obj) : Option ℚ :=
  if landQualifies prevPy px py o then
    match best with
    | none => some (topEdge o)
    | some b => if b < topEdge o then some (topEdge o) else some b
  else best

/-- The `bestTop` accumulation loop of `stepSim` (main.cpp lines 90-100):
scan the obstacle list, keeping the greatest qualifying platform top edge. -/
def landingTop (prevPy px py : ℚ) (objs : List Obj) : Option ℚ :=
  objs.foldl (landBest prevPy px py) none

/-- Landing resolution of `stepSim` (main.cpp lines 101-107): snap to the best
qualifying platform top, zeroing `vy`; otherwise clear `onGround`. -/
def applyLanding (prevPy : ℚ) (n : SimState) (objs : List Obj) : SimState :=
  match landingTop prevPy n.px n.py objs with
  | some t => { n with py := t, vy := 0, onGround := true }
  | none => { n with onGround := false }

/-- One iteration of the jump-pad loop (main.cpp lines 110-117). -/
def padStep (m : SimState) (o : Obj) : SimState :=
  if o.type == ObjType.JUMP_PAD && o.r.contains m.px m.py then
    { m with vy := if (0 : ℚ) < o.power then o.power else JUMP_VELOCITY, onGround := false }
  else m

/-- Jump-pad pass of `stepSim` (main.cpp lines 110-117): each overlapping pad
overrides `vy` with its power (default jump velocity when the power is not
positive) and clears `onGround`. -/
def applyPads (objs : List Obj) (n : SimState) : SimState :=
  objs.foldl padStep n

/-- One iteration of the spike loop (main.cpp lines 120-125). -/
def spikeStep (m : SimState) (o : Obj) : SimState :=
  if o.type == ObjType.SPIKE && o.r.contains m.px m.py then { m with py := sentinelY }
  else m

/-- Spike pass of `stepSim` (main.cpp lines 120-125): any spike containing the
current point collapses `py` to the sentinel. -/
def applySpikes (objs : List Obj) (n : SimState) : SimState :=
  objs.foldl spikeStep n

/-- `stepSim` (main.cpp lines 77-128). -/
def stepSim (s : SimState) (doJump : Bool) (objs : List Obj) : SimState :=
  applySpikes objs (applyPads objs (applyLanding s.py (integrate s doJump) objs))

/-! ## Pathfinder `runPathfinder` (main.cpp lines 132-207). -/

/-- The safety lookahead (main.cpp lines 148-153, 163-168, 183-188): step
without jumping up to `n` times, reporting `true` as soon as `py` falls
strictly below the dead threshold. -/
def willDie (objs : List Obj) : SimState → Nat → Bool
  | _, 0 => false
  | s, n + 1 =>
    let s' := stepSim s false objs
    if s'.py < deadThreshold then true else willDie objs s' n

/-- Iterated no-jump stepping (the `for (int d=0; d<delay; ++d)` loops of
main.cpp lines 180 and 192). -/
def stepNoJump (objs : List Obj) (st : SimState) : Nat → SimState
  | 0 => st
  | n + 1 => stepSim (stepNoJump objs st n) false objs

/-- One candidate delay of the delayed-jump search (main.cpp lines 179-188):
the trial state after `d` no-jump steps must be on the ground, and the
lookahead after the trial jump must survive. -/
def goodDelay (objs : List Obj) (st : SimState) (d : Nat) : Bool :=
  (stepNoJump objs st d).onGround &&
  !(willDie objs (stepSim (stepNoJump objs st d) true objs) LOOKAHEAD_FRAMES)

/-- First delay in the given candidate list that commits (main.cpp lines
178-197): skipped delays are exactly those that are not `goodDelay`. -/
def findDelay (objs : List Obj) (st : SimState) : List Nat → Option Nat
  | [] => none
  | d :: rest => if goodDelay objs st d then some d else findDelay objs st rest

/-- Outcome of `runPathfinder`: success carries the jump schedule and the
`debug["frames"]` count; `failedFrame` models `debug["failed_frame"] = frame;
return false` (main.cpp lines 201-202); `maxFramesExceeded` models
`debug["failed_reason"] = "max_frames_exceeded"; return false` (lines
205-206).  The failure constructors keep the `outJumps` accumulated so far,
as the C++ vector does. -/
inductive PlanResult where
  | success (jumps : List Nat) (frames : Nat)
  | failedFrame (jumps : List Nat) (frame : Nat)
  | maxFramesExceeded (jumps : List Nat)
deriving DecidableEq, Repr

/-- The frame loop of `runPathfinder` (main.cpp lines 141-203), with the
remaining iteration budget `fuel` made explicit (`frame < MAX_SIM_FRAMES`
becomes `fuel` counting down from `MAX_SIM_FRAMES`). -/
def runAux (objs : List Obj) (goalX : ℚ) : Nat → SimState → Nat → List Nat → PlanResult
  | 0, _, _, acc => .maxFramesExceeded acc
  | fuel + 1, st, frame, acc =>
    if goalX ≤ st.px then .success acc frame
    else if willDie objs st LOOKAHEAD_FRAMES = false then
      runAux objs goalX fuel (stepSim st false objs) (frame + 1) acc
    else if st.onGround = true ∧
        willDie objs (stepSim st true objs) LOOKAHEAD_FRAMES = false then
      runAux objs goalX fuel (stepSim st true objs) (frame + 1) (acc ++ [frame])
    else
      match findDelay objs st (List.range' 1 8) with
      | some d =>
        runAux objs goalX fuel (stepSim (stepNoJump objs st d) true objs) (frame + 1)
          (acc ++ [frame + d])
      | none => .failedFrame acc frame

/-- `runPathfinder` (main.cpp lines 132-207). -/
def runPathfinder (objs : List Obj) (start : SimState) (goalX : ℚ) : PlanResult :=
  runAux objs goalX MAX_SIM_FRAMES start 0 []

/-! ## Goal derivation in `PathfinderAlert::run` (main.cpp lines 469-477).
`minX` starts at `INFINITY` and `maxX` at `-INFINITY`; the non-finite cases
are modelled by `Option`, with `getD` playing the `isfinite` patch-up. -/

/-- The `minX = std::min(minX, o.r.x)` accumulation over ALL obstacles
(main.cpp line 471). `none` models the untouched `INFINITY` start. -/
def derivedMinX (objs : List Obj) : Option ℚ :=
  objs.foldl
    (fun b o =>
      match b with
      | none => some o.r.x
      | some m => some (min m o.r.x))
    none

/-- The `maxX = std::max(maxX, o.r.x + o.r.w)` accumulation over ALL obstacles
(main.cpp line 472). `none` models the untouched `-INFINITY` start. -/
def derivedMaxX (objs : List Obj) : Option ℚ :=
  objs.foldl
    (fun b o =>
      match b with
      | none => some (o.r.x + o.r.w)
      | some m => some (max m (o.r.x + o.r.w)))
    none

/-- `minX` after the `isfinite` patch (main.cpp line 475). -/
def runMinX (objs : List Obj) : ℚ :=
  (derivedMinX objs).getD 0

/-- The goal X used by `run` (main.cpp lines 472, 476, 487): maximum of
`x + w` over all obstacles, with default `minX + 1200` when no obstacle
updated it. -/
def runGoalX (objs : List Obj) : ℚ :=
  (derivedMaxX objs).getD (runMinX objs + 1200)

/-- Modelled from the spec, for comparison with `runGoalX`: the goal X the
specification describes, "the maximum (x + w) over all Platform obstacles",
with the same default when there is no contribution. -/
def specGoalXPlatformsOnly (objs : List Obj) : ℚ :=
  (((objs.filter (fun o => o.type == ObjType.PLATFORM)).map
      (fun o => o.r.x + o.r.w)).max?).getD (runMinX objs + 1200)

/-! ## Level text parser `parseLevelTextFile` (main.cpp lines 215-268),
modelled on the list of lines of the file. -/

/-- The whitespace set `" \t\r\n"` of the `trim` lambda (main.cpp line 225). -/
def isWSChar (c : Char) : Bool :=
  c == ' ' || c == '\t' || c == '\r' || c == '\n'

/-- The `trim` lambda (main.cpp lines 224-227), on the character list. -/
def trimChars (l : List Char) : List Char :=
  ((l.dropWhile isWSChar).reverse.dropWhile isWSChar).reverse

/-- Comma splitting of a character list: the tokens between `,` delimiters. -/
def splitOnComma : List Char → List (List Char)
  | [] => [[]]
  | c :: cs =>
    match splitOnComma cs with
    | t :: ts => if c = ',' then [] :: t :: ts else (c :: t) :: ts
    | [] => [[c]]

/-- Field splitting by repeated `std::getline(ss, tok, ',')` (main.cpp line
232): split on `,`, except that a trailing delimiter yields no final empty
token (`getline` fails at end of input before producing one). -/
def splitFields (line : List Char) : List (List Char) :=
  let ts := splitOnComma line
  match line.getLast? with
  | some c => if c = ',' then ts.dropLast else ts
  | none => ts

/-- Digit run to a natural value. -/
def digitsToNat (ds : List Char) : Nat :=
  ds.foldl (fun acc c => 10 * acc + (c.toNat - '0'.toNat)) 0

/-- Digit run after the decimal point to a fractional value. -/
def digitsToFrac (ds : List Char) : ℚ :=
  ds.foldr (fun c acc => ((c.toNat - '0'.toNat : Nat) + acc) / 10) 0

/-- Model of `std::stof` on a field (main.cpp lines 241-256): skip leading
whitespace, optional sign, then the longest `digits[.digits]` prefix; fails
(the `catch` path, main.cpp lines 261-264) when no digit is consumed.  The
exotic `strtof` forms (exponents, hexadecimal, infinities) are not modelled;
no claim depends on them. -/
def parseQ (tok : List Char) : Option ℚ :=
  let l := tok.dropWhile isWSChar
  let sign : ℚ := if l.head? = some '-' then -1 else 1
  let l1 := if l.head? = some '-' || l.head? = some '+' then l.tail else l
  let ds := l1.takeWhile Char.isDigit
  let l2 := l1.dropWhile Char.isDigit
  let fs := if l2.head? = some '.' then l2.tail.takeWhile Char.isDigit else []
  if ds.isEmpty && fs.isEmpty then none
  else some (sign * ((digitsToNat ds : ℚ) + digitsToFrac fs))

/-- Per-line outcome of the parser loop body (main.cpp lines 222-264). -/
inductive LineKind where
  | skip
  | ignored
  | obj (o : Obj)
  | tooFew
  | badNum
deriving DecidableEq, Repr

/-- Classification of one line (main.cpp lines 222-264): trim; skip blank and
`#` lines; split fields and trim each; uppercase the keyword; `PLATFORM` and
`SPIKE` need five fields, `JUMP_PAD` four (its height is fixed at 16 and its
power defaults to the jump velocity); an unrecognized keyword is ignored. -/
def lineStatus (raw : String) : LineKind :=
  match trimChars raw.toList with
  | [] => .skip
  | c :: cs =>
    if c = '#' then .skip
    else
    match (splitFields (c :: cs)).map trimChars with
    | [] => .skip
    | t0 :: restToks =>
      let t := t0.map Char.toUpper
      if t = "PLATFORM".toList ∨ t = "SPIKE".toList then
        match restToks with
        | a :: b :: c :: d :: _ =>
          match parseQ a, parseQ b, parseQ c, parseQ d with
          | some x, some y, some w, some h =>
            .obj
              ⟨if t = "PLATFORM".toList then ObjType.PLATFORM else ObjType.SPIKE,
                ⟨x, y, w, h⟩, 0⟩
          | _, _, _, _ => .badNum
        | _ => .tooFew
      else if t = "JUMP_PAD".toList then
        match restToks with
        | a :: b :: c :: rest =>
          let pw := match rest with
            | p :: _ => parseQ p
            | [] => some JUMP_VELOCITY
          match parseQ a, parseQ b, parseQ c, pw with
          | some x, some y, some w, some p => .obj ⟨ObjType.JUMP_PAD, ⟨x, y, w, 16⟩, p⟩
          | _, _, _, _ => .badNum
        | _ => .tooFew
      else .ignored

/-- The line loop of `parseLevelTextFile` (main.cpp lines 221-265): `n` is
the 1-based line counter `ln`, `acc` the `out` vector; a malformed recognized
record aborts the whole parse with the offending line number. -/
def parseLevelAux : List String → Nat → List Obj → Except Nat (List Obj)
  | [], _, acc => .ok acc
  | l :: ls, n, acc =>
    match lineStatus l with
    | .obj o => parseLevelAux ls (n + 1) (acc ++ [o])
    | .tooFew => .error n
    | .badNum => .error n
    | _ => parseLevelAux ls (n + 1) acc

/-- `parseLevelTextFile` (main.cpp lines 215-268) on the file's lines. -/
def parseLevelTextFile (lines : List String) : Except Nat (List Obj) :=
  parseLevelAux lines 1 []

/-! ## Concrete course used to exercise the delayed-jump bookkeeping of
`runPathfinder`.  The agent starts on the ground at the origin; the course
forces a delayed jump (committed with delay 8 at frame 0) onto the platform
`P1` through a weak jump pad, after which an immediate jump is committed at
loop frame 7 — the loop frame counter having advanced by only one per
iteration while the simulated state advanced nine steps. -/

def cexObjs : List Obj :=
  [ ⟨ObjType.PLATFORM, ⟨27, -24, 3, 10⟩, 0⟩,
    ⟨ObjType.PLATFORM, ⟨42, -15, 136, 10⟩, 0⟩,
    ⟨ObjType.JUMP_PAD, ⟨32, -4, 2, 2⟩, 1⟩,
    ⟨ObjType.SPIKE, ⟨35, -30, 15, 14⟩, 0⟩,
    ⟨ObjType.SPIKE, ⟨90, 100, 5, 100⟩, 0⟩,
    ⟨ObjType.SPIKE, ⟨185, -9, 5, 3⟩, 0⟩ ]

def cexStart : SimState := ⟨0, 0, 0, 0, true⟩

/-- Obstacles and pre-step state showing that the landing snap can pull the
agent out of a spike that contained the freshly integrated position. -/
def c4spike : Obj := ⟨ObjType.SPIKE, ⟨0, 5, 10, 4⟩, 0⟩

def c4objs : List Obj := [⟨ObjType.PLATFORM, ⟨0, 0, 10, 10⟩, 0⟩, c4spike]

def c4s : SimState := ⟨0, 12, 0, -200, false⟩

/-! ## Lemmas about the stepper phases -/

theorem applyPads_cons (o : Obj) (os : List Obj) (n : SimState) :
    applyPads (o :: os) n = applyPads os (padStep n o) := rfl

theorem padStep_px (m : SimState) (o : Obj) : (padStep m o).px = m.px := by
  unfold padStep; split <;> rfl

theorem padStep_py (m : SimState) (o : Obj) : (padStep m o).py = m.py := by
  unfold padStep; split <;> rfl

theorem padStep_vx (m : SimState) (o : Obj) : (padStep m o).vx = m.vx := by
  unfold padStep; split <;> rfl

theorem applyPads_px (objs : List Obj) (n : SimState) : (applyPads objs n).px = n.px := by
  induction objs generalizing n with
  | nil => rfl
  | cons o os ih => rw [applyPads_cons, ih, padStep_px]

theorem applyPads_py (objs : List Obj) (n : SimState) : (applyPads objs n).py = n.py := by
  induction objs generalizing n with
  | nil => rfl
  | cons o os ih => rw [applyPads_cons, ih, padStep_py]

theorem applyPads_vx (objs : List Obj) (n : SimState) : (applyPads objs n).vx = n.vx := by
  induction objs generalizing n with
  | nil => rfl
  | cons o os ih => rw [applyPads_cons, ih, padStep_vx]

theorem applyPads_onGround_false (objs : List Obj) (n : SimState) (h : n.onGround = false) :
    (applyPads objs n).onGround = false := by
  induction objs generalizing n with
  | nil => exact h
  | cons o os ih =>
    rw [applyPads_cons]
    apply ih
    unfold padStep
    split
    · rfl
    · exact h

theorem applyPads_no_hit (objs : List Obj) (n : SimState)
    (h : ∀ o ∈ objs, o.type = ObjType.JUMP_PAD → o.r.contains n.px n.py = false) :
    applyPads objs n = n := by
  induction objs with
  | nil => rfl
  | cons o os ih =>
    rw [applyPads_cons]
    have hstep : padStep n o = n := by
      unfold padStep
      split
      · rename_i hcond
        simp only [Bool.and_eq_true, beq_iff_eq] at hcond
        rw [h o (List.mem_cons_self o os) hcond.1] at hcond
        exact absurd hcond.2 (by simp)
      · rfl
    rw [hstep]
    exact ih fun o' ho' => h o' (List.mem_cons_of_mem o ho')

theorem applySpikes_cons (o : Obj) (os : List Obj) (n : SimState) :
    applySpikes (o :: os) n = applySpikes os (spikeStep n o) := rfl

theorem spikeStep_px (m : SimState) (o : Obj) : (spikeStep m o).px = m.px := by
  unfold spikeStep; split <;> rfl

theorem spikeStep_vx (m : SimState) (o : Obj) : (spikeStep m o).vx = m.vx := by
  unfold spikeStep; split <;> rfl

theorem spikeStep_vy (m : SimState) (o : Obj) : (spikeStep m o).vy = m.vy := by
  unfold spikeStep; split <;> rfl

theorem spikeStep_onGround (m : SimState) (o : Obj) : (spikeStep m o).onGround = m.onGround := by
  unfold spikeStep; split <;> rfl

theorem applySpikes_px (objs : List Obj) (n : SimState) : (applySpikes objs n).px = n.px := by
  induction objs generalizing n with
  | nil => rfl
  | cons o os ih => rw [applySpikes_cons, ih, spikeStep_px]

theorem applySpikes_vx (objs : List Obj) (n : SimState) : (applySpikes objs n).vx = n.vx := by
  induction objs generalizing n with
  | nil => rfl
  | cons o os ih => rw [applySpikes_cons, ih, spikeStep_vx]

theorem applySpikes_vy (objs : List Obj) (n : SimState) : (applySpikes objs n).vy = n.vy := by
  induction objs generalizing n with
  | nil => rfl
  | cons o os ih => rw [applySpikes_cons, ih, spikeStep_vy]

theorem applySpikes_onGround (objs : List Obj) (n : SimState) :
    (applySpikes objs n).onGround = n.onGround := by
  induction objs generalizing n with
  | nil => rfl
  | cons o os ih => rw [applySpikes_cons, ih, spikeStep_onGround]

theorem applySpikes_no_hit (objs : List Obj) (n : SimState)
    (h : ∀ o ∈ objs, o.type = ObjType.SPIKE → o.r.contains n.px n.py = false) :
    applySpikes objs n = n := by
  induction objs with
  | nil => rfl
  | cons o os ih =>
    rw [applySpikes_cons]
    have hstep : spikeStep n o = n := by
      unfold spikeStep
      split
      · rename_i hcond
        simp only [Bool.and_eq_true, beq_iff_eq] at hcond
        rw [h o (List.mem_cons_self o os) hcond.1] at hcond
        exact absurd hcond.2 (by simp)
      · rfl
    rw [hstep]
    exact ih fun o' ho' => h o' (List.mem_cons_of_mem o ho')

theorem applySpikes_sentinel (objs : List Obj) (n : SimState) (h : n.py = sentinelY) :
    (applySpikes objs n).py = sentinelY := by
  induction objs generalizing n with
  | nil => exact h
  | cons o os ih =>
    rw [applySpikes_cons]
    apply ih
    unfold spikeStep
    split
    · rfl
    · exact h

theorem applySpikes_hit (objs : List Obj) (n : SimState)
    (h : ∃ o ∈ objs, o.type = ObjType.SPIKE ∧ o.r.contains n.px n.py = true) :
    (applySpikes objs n).py = sentinelY := by
  induction objs generalizing n with
  | nil => obtain ⟨o, ho, -⟩ := h; exact absurd ho (List.not_mem_nil o)
  | cons o os ih =>
    obtain ⟨w, hw, hwt, hwc⟩ := h
    rw [applySpikes_cons]
    rcases List.mem_cons.mp hw with hwo | hwo
    · subst hwo
      have hstep : (spikeStep n w).py = sentinelY := by
        unfold spikeStep
        rw [if_pos (by simp [hwt, hwc])]
      apply applySpikes_sentinel
      exact hstep
    · by_cases hfire : (o.type == ObjType.SPIKE && o.r.contains n.px n.py) = true
      · apply applySpikes_sentinel
        unfold spikeStep
        rw [if_pos hfire]
      · have hstep : spikeStep n o = n := by
          unfold spikeStep
          rw [if_neg hfire]
        rw [hstep]
        exact ih n ⟨w, hwo, hwt, hwc⟩

theorem foldl_landBest_some (p px py : ℚ) (objs : List Obj) :
    ∀ b : ℚ, objs.foldl (landBest p px py) (some b) =
      some (((objs.filter (landQualifies p px py)).map topEdge).foldl max b) := by
  induction objs with
  | nil => intro b; rfl
  | cons o os ih =>
    intro b
    by_cases hq : landQualifies p px py o = true
    · have hstep : landBest p px py (some b) o = some (max b (topEdge o)) := by
        unfold landBest
        rw [if_pos hq]
        show (if b < topEdge o then some (topEdge o) else some b) = some (max b (topEdge o))
        rcases le_or_lt (topEdge o) b with h | h
        · rw [if_neg (not_lt.mpr h), max_eq_left h]
        · rw [if_pos h, max_eq_right (le_of_lt h)]
      rw [List.foldl_cons, hstep, ih, List.filter_cons_of_pos hq, List.map_cons,
        List.foldl_cons]
    · have hstep : landBest p px py (some b) o = some b := by
        unfold landBest; rw [if_neg hq]
      rw [List.foldl_cons, hstep, ih, List.filter_cons_of_neg hq]

theorem landingTop_eq (p px py : ℚ) (objs : List Obj) :
    landingTop p px py objs = ((objs.filter (landQualifies p px py)).map topEdge).max? := by
  induction objs with
  | nil => rfl
  | cons o os ih =>
    by_cases hq : landQualifies p px py o = true
    · have hstep : landBest p px py none o = some (topEdge o) := by
        unfold landBest; rw [if_pos hq]
      unfold landingTop
      rw [List.foldl_cons, hstep, foldl_landBest_some, List.filter_cons_of_pos hq,
        List.map_cons]
      rfl
    · have hstep : landBest p px py none o = none := by
        unfold landBest; rw [if_neg hq]
      unfold landingTop
      rw [List.foldl_cons, hstep, List.filter_cons_of_neg hq]
      exact ih

/-- C3: for every input state, jump decision, and obstacle list, `stepSim`
considers exactly the Platform obstacles whose span contains the new `px` and
whose top edge was crossed downward this step (previous `py` at or above the
top within epsilon, new `py` at or below it within epsilon), landing on the
one with the highest top edge: `py` is snapped to that edge, `vy` zeroed and
`onGround` set (stated here for steps whose landing point is not overridden
by a jump pad or spike later in the same step); when no platform qualifies,
the output has `onGround = false` even if the input was grounded. -/
theorem C3_landing_detection (s : SimState) (j : Bool) (objs : List Obj) :
    landingTop s.py (integrate s j).px (integrate s j).py objs =
      ((objs.filter (landQualifies s.py (integrate s j).px (integrate s j).py)).map
        topEdge).max? ∧
    (landingTop s.py (integrate s j).px (integrate s j).py objs = none →
      (stepSim s j objs).onGround = false) ∧
    (∀ T, landingTop s.py (integrate s j).px (integrate s j).py objs = some T →
      (∀ o ∈ objs, o.type = ObjType.JUMP_PAD → o.r.contains (integrate s j).px T = false) →
      (∀ o ∈ objs, o.type = ObjType.SPIKE → o.r.contains (integrate s j).px T = false) →
      (stepSim s j objs).py = T ∧ (stepSim s j objs).vy = 0 ∧
        (stepSim s j objs).onGround = true) := by
  refine ⟨landingTop_eq _ _ _ _, ?_, ?_⟩
  · intro h
    unfold stepSim
    rw [applySpikes_onGround]
    apply applyPads_onGround_false
    unfold applyLanding
    rw [h]
  · intro T hT hpads hspikes
    have hland : applyLanding s.py (integrate s j) objs =
        { integrate s j with py := T, vy := 0, onGround := true } := by
      unfold applyLanding; rw [hT]
    have hpads' : applyPads objs { integrate s j with py := T, vy := 0, onGround := true } =
        { integrate s j with py := T, vy := 0, onGround := true } :=
      applyPads_no_hit _ _ hpads
    have hspikes' :
        applySpikes objs { integrate s j with py := T, vy := 0, onGround := true } =
          { integrate s j with py := T, vy := 0, onGround := true } :=
      applySpikes_no_hit _ _ hspikes
    unfold stepSim
    rw [hland, hpads', hspikes']
    exact ⟨rfl, rfl, rfl⟩

/-- Witness for C3 at a concrete landing: falling from `py = 12` with
`vy = -200` onto the platform with top edge `10`. -/
theorem C3_landing_detection_witness :
    (stepSim ⟨0, 12, 0, -200, false⟩ false [⟨ObjType.PLATFORM, ⟨0, 0, 10, 10⟩, 0⟩]).py = 10 ∧
    (stepSim ⟨0, 12, 0, -200, false⟩ false
      [⟨ObjType.PLATFORM, ⟨0, 0, 10, 10⟩, 0⟩]).onGround = true := by
  obtain ⟨hpy, -, hog⟩ :=
    (C3_landing_detection ⟨0, 12, 0, -200, false⟩ false
      [⟨ObjType.PLATFORM, ⟨0, 0, 10, 10⟩, 0⟩]).2.2 10 (by decide) (by decide) (by decide)
  exact ⟨hpy, hog⟩

theorem stepNoJump_succ_front (objs : List Obj) (st : SimState) (n : Nat) :
    stepNoJump objs st (n + 1) = stepNoJump objs (stepSim st false objs) n := by
  induction n with
  | zero => rfl
  | succ n ih =>
    show stepSim (stepNoJump objs st (n + 1)) false objs = _
    rw [ih]
    rfl

theorem willDie_iff (objs : List Obj) :
    ∀ (n : Nat) (s : SimState), willDie objs s n = true ↔
      ∃ k < n, (stepNoJump objs s (k + 1)).py < deadThreshold := by
  intro n
  induction n with
  | zero => intro s; simp [willDie]
  | succ n ih =>
    intro s
    rw [willDie]
    split
    · rename_i h
      simp only [true_iff]
      exact ⟨0, Nat.succ_pos n, h⟩
    · rename_i h
      rw [ih (stepSim s false objs)]
      constructor
      · rintro ⟨k, hk, hpy⟩
        exact ⟨k + 1, by omega, by rwa [stepNoJump_succ_front]⟩
      · rintro ⟨k, hk, hpy⟩
        cases k with
        | zero => exact absurd hpy h
        | succ k => exact ⟨k, by omega, by rwa [stepNoJump_succ_front] at hpy⟩

/-- C4 counterexample: the spike `c4spike` contains the integrated position of
the step from `c4s`, yet `stepSim` leaves `py` at the snapped platform top
`10`, not at the sentinel — the spike test runs after landing resolution, not
on the freshly integrated point. -/
theorem C4_counterexample_integrated_point :
    c4spike ∈ c4objs ∧ c4spike.type = ObjType.SPIKE ∧
    c4spike.r.contains (integrate c4s false).px (integrate c4s false).py = true ∧
    (stepSim c4s false c4objs).py = 10 ∧ (10 : ℚ) ≠ sentinelY := by decide

/-- C4 (amended): the spike test applies to the position as it stands when
the spike pass runs — the integrated `px` and the post-landing `py` — and any
contained spike forces `py` to the sentinel `-999999`; every dead test of the
pathfinder's lookaheads is the strict comparison `py < -1000`, a threshold
strictly above the sentinel, so a spike hit within the lookahead horizon is
classified as death. -/
theorem C4_spike_sentinel_and_dead_tests (s : SimState) (j : Bool) (objs : List Obj)
    (n : Nat) :
    ((∃ o ∈ objs, o.type = ObjType.SPIKE ∧
        o.r.contains (applyLanding s.py (integrate s j) objs).px
          (applyLanding s.py (integrate s j) objs).py = true) →
      (stepSim s j objs).py = sentinelY) ∧
    (willDie objs s n = true ↔
      ∃ k < n, (stepNoJump objs s (k + 1)).py < deadThreshold) ∧
    sentinelY < deadThreshold := by
  refine ⟨?_, willDie_iff objs n s, by decide⟩
  intro h
  unfold stepSim
  apply applySpikes_hit
  rwa [applyPads_px, applyPads_py]

/-- Witness for C4: a spike straddling the fall path kills the step, and the
sentinel is below the dead threshold. -/
theorem C4_spike_sentinel_witness :
    (stepSim ⟨0, 0, 0, 0, false⟩ false [⟨ObjType.SPIKE, ⟨0, -10, 10, 10⟩, 0⟩]).py =
      sentinelY ∧ sentinelY < deadThreshold :=
  ⟨(C4_spike_sentinel_and_dead_tests ⟨0, 0, 0, 0, false⟩ false
      [⟨ObjType.SPIKE, ⟨0, -10, 10, 10⟩, 0⟩] 0).1 (by decide),
    (C4_spike_sentinel_and_dead_tests ⟨0, 0, 0, 0, false⟩ false
      [⟨ObjType.SPIKE, ⟨0, -10, 10, 10⟩, 0⟩] 0).2.2⟩

/-- C6: a jump request while on the ground sets `vy` to the jump velocity and
clears `onGround` before integration; a jump request while airborne is
silently ignored — the step is exactly the no-jump step. -/
theorem C6_jump_application (s : SimState) (objs : List Obj) :
    (s.onGround = false → stepSim s true objs = stepSim s false objs) ∧
    (s.onGround = true →
      stepSim s true objs =
        stepSim { s with vy := JUMP_VELOCITY, onGround := false } false objs) := by
  constructor
  · intro h
    unfold stepSim integrate
    rw [h]
    rfl
  · intro h
    unfold stepSim integrate
    rw [h]
    rfl

/-- Witness for C6 at concrete airborne and grounded states. -/
theorem C6_jump_application_witness :
    stepSim ⟨0, 0, 0, 0, false⟩ true [] = stepSim ⟨0, 0, 0, 0, false⟩ false [] ∧
    stepSim ⟨0, 0, 0, 0, true⟩ true [] =
      stepSim ⟨0, 0, 0, JUMP_VELOCITY, false⟩ false [] :=
  ⟨(C6_jump_application ⟨0, 0, 0, 0, false⟩ []).1 rfl,
    (C6_jump_application ⟨0, 0, 0, 0, true⟩ []).2 rfl⟩

theorem integrate_px (s : SimState) (j : Bool) :
    (integrate s j).px = s.px + PLAYER_SPEED * FRAME_DT := by
  unfold integrate
  dsimp only
  split <;> rfl

theorem integrate_vx (s : SimState) (j : Bool) : (integrate s j).vx = s.vx := by
  unfold integrate
  dsimp only
  split <;> rfl

theorem applyLanding_px (p : ℚ) (n : SimState) (objs : List Obj) :
    (applyLanding p n objs).px = n.px := by
  unfold applyLanding
  split <;> rfl

theorem applyLanding_vx (p : ℚ) (n : SimState) (objs : List Obj) :
    (applyLanding p n objs).vx = n.vx := by
  unfold applyLanding
  split <;> rfl

theorem integrate_vx_set (s : SimState) (j : Bool) (v : ℚ) :
    integrate { s with vx := v } j = { integrate s j with vx := v } := by
  cases s with
  | mk px py vx vy og =>
    by_cases h : (j && og) = true
    · simp [integrate, h]
    · simp [integrate, h]

theorem applyLanding_vx_set (p : ℚ) (n : SimState) (objs : List Obj) (v : ℚ) :
    applyLanding p { n with vx := v } objs = { applyLanding p n objs with vx := v } := by
  cases n with
  | mk px py vx vy og =>
    unfold applyLanding
    dsimp only
    cases landingTop p px py objs <;> rfl

theorem padStep_vx_set (m : SimState) (o : Obj) (v : ℚ) :
    padStep { m with vx := v } o = { padStep m o with vx := v } := by
  cases m with
  | mk px py vx vy og =>
    unfold padStep
    dsimp only
    split <;> rfl

theorem applyPads_vx_set (objs : List Obj) (n : SimState) (v : ℚ) :
    applyPads objs { n with vx := v } = { applyPads objs n with vx := v } := by
  induction objs generalizing n with
  | nil => rfl
  | cons o os ih => rw [applyPads_cons, padStep_vx_set, ih, applyPads_cons]

theorem spikeStep_vx_set (m : SimState) (o : Obj) (v : ℚ) :
    spikeStep { m with vx := v } o = { spikeStep m o with vx := v } := by
  cases m with
  | mk px py vx vy og =>
    unfold spikeStep
    dsimp only
    split <;> rfl

theorem applySpikes_vx_set (objs : List Obj) (n : SimState) (v : ℚ) :
    applySpikes objs { n with vx := v } = { applySpikes objs n with vx := v } := by
  induction objs generalizing n with
  | nil => rfl
  | cons o os ih => rw [applySpikes_cons, spikeStep_vx_set, ih, applySpikes_cons]

/-- C10: `stepSim` never changes `vx`, advances `px` by exactly
`PLAYER_SPEED * FRAME_DT`, and its result is independent of the input `vx`
(changing `vx` changes nothing but the copied `vx` field), so an agent seeded
with `vx = 0` still moves forward at full speed. -/
theorem C10_horizontal_motion (s : SimState) (j : Bool) (objs : List Obj) :
    (stepSim s j objs).vx = s.vx ∧
    (stepSim s j objs).px = s.px + PLAYER_SPEED * FRAME_DT ∧
    ∀ v : ℚ, stepSim { s with vx := v } j objs = { stepSim s j objs with vx := v } := by
  refine ⟨?_, ?_, ?_⟩
  · unfold stepSim
    rw [applySpikes_vx, applyPads_vx, applyLanding_vx, integrate_vx]
  · unfold stepSim
    rw [applySpikes_px, applyPads_px, applyLanding_px, integrate_px]
  · intro v
    unfold stepSim
    rw [show ({ s with vx := v } : SimState).py = s.py from rfl, integrate_vx_set,
      applyLanding_vx_set, applyPads_vx_set, applySpikes_vx_set]

theorem findDelay_none_iff (objs : List Obj) (st : SimState) :
    ∀ l : List Nat, findDelay objs st l = none ↔ ∀ d ∈ l, goodDelay objs st d = false := by
  intro l
  induction l with
  | nil => simp [findDelay]
  | cons d rest ih =>
    rw [findDelay]
    by_cases h : goodDelay objs st d = true
    · rw [if_pos h]
      refine iff_of_false (by simp) fun hall => ?_
      have := hall d (List.mem_cons_self d rest)
      rw [h] at this
      exact Bool.true_eq_false.mp this
    · rw [if_neg h, ih]
      constructor
      · intro hall d' hd'
        rcases List.mem_cons.mp hd' with rfl | hd'
        · cases hb : goodDelay objs st d'
          · rfl
          · exact absurd hb h
        · exact hall d' hd'
      · intro hall d' hd'
        exact hall d' (List.mem_cons_of_mem d hd')

theorem findDelay_range'_min (objs : List Obj) (st : SimState) :
    ∀ n a d, findDelay objs st (List.range' a n) = some d →
      a ≤ d ∧ d < a + n ∧ goodDelay objs st d = true ∧
        ∀ e, a ≤ e → e < d → goodDelay objs st e = false := by
  intro n
  induction n with
  | zero => intro a d h; simp [List.range', findDelay] at h
  | succ n ih =>
    intro a d h
    rw [List.range'_succ, findDelay] at h
    by_cases hg : goodDelay objs st a = true
    · rw [if_pos hg] at h
      injection h with h
      subst h
      exact ⟨le_refl _, by omega, hg, fun e he1 he2 => absurd he2 (by omega)⟩
    · rw [if_neg hg] at h
      obtain ⟨h1, h2, h3, h4⟩ := ih (a + 1) d h
      refine ⟨by omega, by omega, h3, ?_⟩
      intro e he1 he2
      rcases Nat.eq_or_lt_of_le he1 with he | hlt
      · rw [← he]
        cases hb : goodDelay objs st a
        · rfl
        · exact absurd hb hg
      · exact h4 e hlt he2

/-- C5: at a frame where the no-jump lookahead dies and the immediate jump is
unavailable or unsafe, the delayed-jump search tries delays 1 through 8
inclusive in increasing order, a delay qualifying only when its trial state is
on the ground and its post-jump lookahead survives (`goodDelay`); the first
qualifying delay `d` is committed — no larger delay is chosen when a smaller
one qualifies — recording frame index `frame + d` and replaying the `d`
no-jump steps plus one jump step onto the real state. -/
theorem C5_delayed_jump_search (objs : List Obj) (st : SimState) :
    (findDelay objs st (List.range' 1 8) = none ↔
      ∀ d, 1 ≤ d → d ≤ 8 → goodDelay objs st d = false) ∧
    (∀ d, findDelay objs st (List.range' 1 8) = some d →
      1 ≤ d ∧ d ≤ 8 ∧ goodDelay objs st d = true ∧
        ∀ e, 1 ≤ e → e < d → goodDelay objs st e = false) ∧
    (∀ (G : ℚ) (frame fuel : Nat) (acc : List Nat) (d : Nat),
      ¬ G ≤ st.px → willDie objs st LOOKAHEAD_FRAMES = true →
      (st.onGround = true → willDie objs (stepSim st true objs) LOOKAHEAD_FRAMES = true) →
      findDelay objs st (List.range' 1 8) = some d →
      runAux objs G (fuel + 1) st frame acc =
        runAux objs G fuel (stepSim (stepNoJump objs st d) true objs) (frame + 1)
          (acc ++ [frame + d])) := by
  refine ⟨?_, ?_, ?_⟩
  · rw [findDelay_none_iff]
    constructor
    · intro h d h1 h2
      exact h d (by rw [List.mem_range'_1]; omega)
    · intro h d hd
      rw [List.mem_range'_1] at hd
      exact h d hd.1 (by omega)
  · intro d h
    obtain ⟨h1, h2, h3, h4⟩ := findDelay_range'_min objs st 8 1 d h
    exact ⟨h1, by omega, h3, fun e he1 he2 => h4 e he1 he2⟩
  · intro G frame fuel acc d h1 h2 h3 h4
    rw [runAux]
    rw [if_neg h1]
    rw [if_neg (by rw [h2]; exact fun h => Bool.true_eq_false.mp h)]
    rw [if_neg ?_]
    · rw [h4]
    · rintro ⟨hog, hsafe⟩
      rw [h3 hog] at hsafe
      exact Bool.true_eq_false.mp hsafe

set_option maxRecDepth 100000 in
/-- Witness for C5 on the concrete course: delay 8 is committed and delay 1
was skipped. -/
theorem C5_delayed_jump_search_witness :
    goodDelay cexObjs cexStart 8 = true ∧ goodDelay cexObjs cexStart 1 = false := by
  have h := (C5_delayed_jump_search cexObjs cexStart).2.1 8 (by decide)
  exact ⟨h.2.2.1, h.2.2.2 1 (le_refl 1) (by omega)⟩

theorem runAux_success_app (objs : List Obj) (G : ℚ) :
    ∀ (fuel : Nat) (st : SimState) (frame : Nat) (acc js : List Nat) (n : Nat),
      runAux objs G fuel st frame acc = .success js n → ∃ t, js = acc ++ t := by
  intro fuel
  induction fuel with
  | zero =>
    intro st frame acc js n h
    rw [runAux] at h
    exact absurd h (by simp)
  | succ fuel ih =>
    intro st frame acc js n h
    rw [runAux] at h
    by_cases h1 : G ≤ st.px
    · rw [if_pos h1] at h
      injection h with hjs hn
      exact ⟨[], by rw [← hjs]; simp⟩
    · rw [if_neg h1] at h
      by_cases h2 : willDie objs st LOOKAHEAD_FRAMES = false
      · rw [if_pos h2] at h
        exact ih _ _ _ _ _ h
      · rw [if_neg h2] at h
        by_cases h3 : st.onGround = true ∧
            willDie objs (stepSim st true objs) LOOKAHEAD_FRAMES = false
        · rw [if_pos h3] at h
          obtain ⟨t, ht⟩ := ih _ _ _ _ _ h
          exact ⟨frame :: t, by rw [ht]; simp⟩
        · rw [if_neg h3] at h
          cases hfd : findDelay objs st (List.range' 1 8) with
          | some d =>
            rw [hfd] at h
            obtain ⟨t, ht⟩ := ih _ _ _ _ _ h
            exact ⟨(frame + d) :: t, by rw [ht]; simp⟩
          | none =>
            rw [hfd] at h
            exact absurd h (by simp)

theorem runAux_goal_mono (objs : List Obj) (G G' : ℚ) (hG : G' ≤ G) :
    ∀ (fuel : Nat) (st : SimState) (frame : Nat) (acc js : List Nat) (n : Nat),
      runAux objs G fuel st frame acc = .success js n →
      ∃ js' n', runAux objs G' fuel st frame acc = .success js' n' ∧ ∃ t, js = js' ++ t := by
  intro fuel
  induction fuel with
  | zero =>
    intro st frame acc js n h
    rw [runAux] at h
    exact absurd h (by simp)
  | succ fuel ih =>
    intro st frame acc js n h
    by_cases h1' : G' ≤ st.px
    · refine ⟨acc, frame, by rw [runAux, if_pos h1'], ?_⟩
      exact runAux_success_app objs G (fuel + 1) st frame acc js n h
    · have h1 : ¬ G ≤ st.px := fun hx => h1' (le_trans hG hx)
      rw [runAux, if_neg h1] at h
      rw [runAux, if_neg h1']
      by_cases h2 : willDie objs st LOOKAHEAD_FRAMES = false
      · rw [if_pos h2] at h ⊢
        exact ih _ _ _ _ _ h
      · rw [if_neg h2] at h ⊢
        by_cases h3 : st.onGround = true ∧
            willDie objs (stepSim st true objs) LOOKAHEAD_FRAMES = false
        · rw [if_pos h3] at h ⊢
          exact ih _ _ _ _ _ h
        · rw [if_neg h3] at h ⊢
          cases hfd : findDelay objs st (List.range' 1 8) with
          | some d =>
            rw [hfd] at h
            exact ih _ _ _ _ _ h
          | none =>
            rw [hfd] at h
            exact absurd h (by simp)

theorem runAux_frame_bounds (objs : List Obj) (G : ℚ) :
    ∀ (fuel : Nat) (st : SimState) (frame : Nat) (acc : List Nat),
      (∀ js n, runAux objs G fuel st frame acc = .success js n →
        frame ≤ n ∧ n < frame + fuel) ∧
      (∀ js f, runAux objs G fuel st frame acc = .failedFrame js f →
        frame ≤ f ∧ f < frame + fuel) := by
  intro fuel
  induction fuel with
  | zero =>
    intro st frame acc
    constructor <;> intro js n h <;> rw [runAux] at h <;> exact absurd h (by simp)
  | succ fuel ih =>
    intro st frame acc
    constructor
    · intro js n h
      rw [runAux] at h
      by_cases h1 : G ≤ st.px
      · rw [if_pos h1] at h
        injection h with hjs hn
        omega
      · rw [if_neg h1] at h
        by_cases h2 : willDie objs st LOOKAHEAD_FRAMES = false
        · rw [if_pos h2] at h
          have := (ih (stepSim st false objs) (frame + 1) acc).1 js n h
          omega
        · rw [if_neg h2] at h
          by_cases h3 : st.onGround = true ∧
              willDie objs (stepSim st true objs) LOOKAHEAD_FRAMES = false
          · rw [if_pos h3] at h
            have := (ih (stepSim st true objs) (frame + 1) (acc ++ [frame])).1 js n h
            omega
          · rw [if_neg h3] at h
            cases hfd : findDelay objs st (List.range' 1 8) with
            | some d =>
              rw [hfd] at h
              have := (ih (stepSim (stepNoJump objs st d) true objs) (frame + 1)
                (acc ++ [frame + d])).1 js n h
              omega
            | none =>
              rw [hfd] at h
              exact absurd h (by simp)
    · intro js f h
      rw [runAux] at h
      by_cases h1 : G ≤ st.px
      · rw [if_pos h1] at h
        exact absurd h (by simp)
      · rw [if_neg h1] at h
        by_cases h2 : willDie objs st LOOKAHEAD_FRAMES = false
        · rw [if_pos h2] at h
          have := (ih (stepSim st false objs) (frame + 1) acc).2 js f h
          omega
        · rw [if_neg h2] at h
          by_cases h3 : st.onGround = true ∧
              willDie objs (stepSim st true objs) LOOKAHEAD_FRAMES = false
          · rw [if_pos h3] at h
            have := (ih (stepSim st true objs) (frame + 1) (acc ++ [frame])).2 js f h
            omega
          · rw [if_neg h3] at h
            cases hfd : findDelay objs st (List.range' 1 8) with
            | some d =>
              rw [hfd] at h
              have := (ih (stepSim (stepNoJump objs st d) true objs) (frame + 1)
                (acc ++ [frame + d])).2 js f h
              omega
            | none =>
              rw [hfd] at h
              injection h with hjs hf
              omega

/-- C7: if `runPathfinder` succeeds for goal `G`, then for any goal `G' ≤ G`
it also succeeds, and the schedule returned for `G'` is a prefix of the
schedule returned for `G`. -/
theorem C7_goal_monotonicity (objs : List Obj) (start : SimState) (G G' : ℚ)
    (js : List Nat) (n : Nat) (hG : G' ≤ G)
    (h : runPathfinder objs start G = .success js n) :
    ∃ js' n', runPathfinder objs start G' = .success js' n' ∧ ∃ t, js = js' ++ t :=
  runAux_goal_mono objs G G' hG MAX_SIM_FRAMES start 0 [] js n h

set_option maxRecDepth 10000 in
/-- Witness for C7 at the trivial course: goals 0 and 0 from a start already
at the goal. -/
theorem C7_goal_monotonicity_witness :
    ∃ js' n', runPathfinder [] ⟨0, 0, 0, 0, true⟩ 0 = .success js' n' ∧
      ∃ t, ([] : List Nat) = js' ++ t :=
  C7_goal_monotonicity [] ⟨0, 0, 0, 0, true⟩ 0 0 [] 0 (le_refl 0) (by decide)

/-- C8: `runPathfinder` always terminates in one of three outcomes — success
before the frame cap, a delay-bound failure recording its frame (strictly
below the cap), or the distinct `max_frames_exceeded` diagnostic — and the
cap diagnostic is never confused with a failing-frame diagnostic. -/
theorem C8_termination_and_diagnostics (objs : List Obj) (s : SimState) (G : ℚ) :
    ((∃ js n, runPathfinder objs s G = .success js n ∧ n < MAX_SIM_FRAMES) ∨
      (∃ js f, runPathfinder objs s G = .failedFrame js f ∧ f < MAX_SIM_FRAMES) ∨
      (∃ js, runPathfinder objs s G = .maxFramesExceeded js)) ∧
    (∀ (js js' : List Nat) (f : Nat),
      (PlanResult.maxFramesExceeded js) ≠ PlanResult.failedFrame js' f) := by
  constructor
  · cases h : runPathfinder objs s G with
    | success js n =>
      left
      have hb := (runAux_frame_bounds objs G MAX_SIM_FRAMES s 0 []).1 js n h
      exact ⟨js, n, rfl, by omega⟩
    | failedFrame js f =>
      right; left
      have hb := (runAux_frame_bounds objs G MAX_SIM_FRAMES s 0 []).2 js f h
      exact ⟨js, f, rfl, by omega⟩
    | maxFramesExceeded js =>
      right; right
      exact ⟨js, rfl⟩
  · intro js js' f hEq
    exact PlanResult.noConfusion hEq

set_option maxRecDepth 1000000 in
/-- C1: on the concrete course `cexObjs`, `runPathfinder` succeeds and returns
the schedule `[8, 7]`, which is not strictly increasing: the delayed jump
committed at loop frame 0 with delay 8 records index 8, but the loop frame
counter advances by only one while the simulated state advances nine steps,
so the immediate jump committed at loop frame 7 then records index 7. -/
theorem C1_schedule_not_ascending :
    runPathfinder cexObjs cexStart 58 = .success [8, 7] 8 ∧
    ¬ List.Chain' (· < ·) [8, 7] := by
  refine ⟨by decide, ?_⟩
  intro h
  exact absurd (List.chain'_cons.mp h).1 (by omega)

def c2objs : List Obj :=
  [⟨ObjType.PLATFORM, ⟨0, 0, 10, 10⟩, 0⟩, ⟨ObjType.SPIKE, ⟨100, 0, 10, 10⟩, 0⟩]

/-- C2 counterexample: with a platform ending at x = 10 and a spike ending at
x = 110, the derived goal is 110 — the spike rectangle contributes — and not
the platforms-only maximum 10 that the claim describes. -/
theorem C2_counterexample_spike_contributes :
    runGoalX c2objs = 110 ∧ specGoalXPlatformsOnly c2objs = 10 ∧ ((110 : ℚ) = 10 → False) := by
  refine ⟨by decide, by decide, by decide⟩

theorem derivedMaxX_go (objs : List Obj) :
    ∀ b : ℚ,
      objs.foldl
        (fun bb o =>
          match bb with
          | none => some (o.r.x + o.r.w)
          | some m => some (max m (o.r.x + o.r.w)))
        (some b) =
      some ((objs.map (fun o => o.r.x + o.r.w)).foldl max b) := by
  induction objs with
  | nil => intro b; rfl
  | cons o os ih =>
    intro b
    rw [List.foldl_cons]
    show os.foldl _ (some (max b (o.r.x + o.r.w))) = _
    rw [ih, List.map_cons, List.foldl_cons]

theorem derivedMaxX_eq (objs : List Obj) :
    derivedMaxX objs = (objs.map (fun o => o.r.x + o.r.w)).max? := by
  cases objs with
  | nil => rfl
  | cons o os =>
    unfold derivedMaxX
    rw [List.foldl_cons]
    show os.foldl _ (some (o.r.x + o.r.w)) = _
    rw [derivedMaxX_go, List.map_cons]
    rfl

/-- C2 (amended): when goalX is not supplied, `run` derives it as the maximum
of `x + w` over ALL obstacles — Platform, Spike and JumpPad rectangles alike
— and when the obstacle list is empty the default `runMinX + 1200 = 1200` is
used instead. -/
theorem C2_goal_derivation_all_obstacles (objs : List Obj) :
    runGoalX objs = ((objs.map (fun o => o.r.x + o.r.w)).max?).getD (runMinX objs + 1200) ∧
    runGoalX [] = (1200 : ℚ) := by
  constructor
  · unfold runGoalX
    rw [derivedMaxX_eq]
  · rfl

theorem parseLevelAux_append_error (bad : String) (rest : List String)
    (hbad : lineStatus bad = .tooFew) :
    ∀ (pre : List String) (n : Nat) (acc objs0 : List Obj),
      parseLevelAux pre n acc = .ok objs0 →
      parseLevelAux (pre ++ bad :: rest) n acc = .error (n + pre.length) := by
  intro pre
  induction pre with
  | nil =>
    intro n acc objs0 h
    simp only [List.nil_append, List.length_nil, Nat.add_zero]
    rw [parseLevelAux, hbad]
  | cons l ls ih =>
    intro n acc objs0 h
    rw [parseLevelAux] at h
    simp only [List.cons_append, List.length_cons]
    rw [parseLevelAux]
    cases hls : lineStatus l with
    | skip =>
      rw [hls] at h
      show parseLevelAux (ls ++ bad :: rest) (n + 1) acc = _
      rw [ih (n + 1) acc objs0 h]
      exact congrArg Except.error (by omega)
    | ignored =>
      rw [hls] at h
      show parseLevelAux (ls ++ bad :: rest) (n + 1) acc = _
      rw [ih (n + 1) acc objs0 h]
      exact congrArg Except.error (by omega)
    | obj o =>
      rw [hls] at h
      show parseLevelAux (ls ++ bad :: rest) (n + 1) (acc ++ [o]) = _
      rw [ih (n + 1) (acc ++ [o]) objs0 h]
      exact congrArg Except.error (by omega)
    | tooFew =>
      rw [hls] at h
      exact absurd h (by simp)
    | badNum =>
      rw [hls] at h
      exact absurd h (by simp)

/-- C9: the structured-record parser fails the whole source on the first
record whose recognized keyword has too few fields for its kind, recording
that record's 1-based line number, never skipping past it; while a record
whose leading keyword is unrecognized is ignored and parsing continues with
nothing but the line counter advanced. -/
theorem C9_parser_fail_fast :
    (∀ (pre : List String) (bad : String) (rest : List String) (objs0 : List Obj),
      lineStatus bad = .tooFew →
      parseLevelTextFile pre = .ok objs0 →
      parseLevelTextFile (pre ++ bad :: rest) = .error (1 + pre.length)) ∧
    (∀ (u : String) (rest : List String) (n : Nat) (acc : List Obj),
      lineStatus u = .ignored →
      parseLevelAux (u :: rest) n acc = parseLevelAux rest (n + 1) acc) := by
  constructor
  · intro pre bad rest objs0 hbad h
    exact parseLevelAux_append_error bad rest hbad pre 1 [] objs0 h
  · intro u rest n acc hu
    rw [parseLevelAux, hu]

set_option maxRecDepth 40000 in
/-- Witness for C9: the three-field `SPIKE` record on line 3 aborts the whole
parse with line 3, and an unrecognized keyword line is skipped. -/
theorem C9_parser_fail_fast_witness :
    parseLevelTextFile ["# level", "PLATFORM,0,0,10,10", "SPIKE,1,2", "SPIKE,3,4,5,6"] =
      .error 3 ∧
    parseLevelAux ["weird,1", "SPIKE,1,2,3,4"] 7 [] =
      parseLevelAux ["SPIKE,1,2,3,4"] 8 [] := by
  constructor
  · exact C9_parser_fail_fast.1 ["# level", "PLATFORM,0,0,10,10"] "SPIKE,1,2"
      ["SPIKE,3,4,5,6"] [⟨ObjType.PLATFORM, ⟨0, 0, 10, 10⟩, 0⟩] (by decide) rfl
  · exact C9_parser_fail_fast.2 "weird,1" ["SPIKE,1,2,3,4"] 7 [] (by decide)
